import Mathlib

/-!
Verification development for the `sitemapper` Go package.

Go strings are embedded as `List Char` (`Str`).  The package's own functions
(`normalizeURL`, `extractLinks`, `crawl`, the reconciliation of `links`,
`NewSiteMapper`'s scheduling loop, the option setters and `GenerateSitemap`)
are translated directly from the source.  Behaviour of external libraries the
source calls into is modelled as follows:

* Go's `net/url` (`Parse`, `IsAbs`, `ResolveReference`, `String`, `Hostname`)
  is modelled for URLs without percent-encoding, userinfo sections, IPv6
  host literals or the `OmitHost` flag — the shape of URL this package
  handles.  The model follows the control flow of the Go implementation
  (fragment cut, scheme scan, authority split, RFC 3986 reference
  resolution with dot-segment removal).
* `golang.org/x/net/html`'s tokenizer is treated as an oracle: `extractLinks`
  consumes the token stream (`Tok`) the tokenizer yields for a document.
* `crypto/sha256` is an arbitrary function `hash : Str → Str` supplied in the
  crawl environment; `time.Now` is a tick counter; the HTTP client is an
  oracle `fetch : Str → Option Str` returning the body of a 200 response and
  `none` for transport errors, redirects (the client errors on redirects) and
  non-200 statuses; logger invocations are accumulated into lists.
-/

/-- Go strings, embedded as lists of characters. -/
abbrev Str := List Char

/-- Literal helper: a Lean string literal viewed as a `Str`. -/
def lit (s : String) : Str := s.data

/-- Whitespace as recognised by Go's `strings.TrimSpace` (ASCII subset). -/
def isSpaceChar (c : Char) : Bool :=
  c == ' ' || c == '\t' || c == '\n' || c == '\r' || c == '\x0b' || c == '\x0c'

/-- Go `strings.TrimSpace` (ASCII whitespace). -/
def trimSpace (s : Str) : Str :=
  ((s.dropWhile isSpaceChar).reverse.dropWhile isSpaceChar).reverse

/-- Go `strings.TrimRight(s, String.singleton c)`: drop every trailing `c`. -/
def trimRightChar (c : Char) (s : Str) : Str :=
  (s.reverse.dropWhile (fun x => x == c)).reverse

/-- Go `strings.Cut(s, String.singleton c)` keeping only the two pieces:
the part before the first `c` and the part after it (empty when `c` is
absent). -/
def cutAt (c : Char) : Str → Str × Str
  | [] => ([], [])
  | x :: xs =>
    if x = c then ([], xs)
    else
      let r := cutAt c xs
      (x :: r.1, r.2)

/-- Index of the last occurrence of `c` in `s` (Go `strings.LastIndexByte`). -/
def lastIndexOf (c : Char) : Str → Option Nat
  | [] => none
  | x :: xs =>
    match lastIndexOf c xs with
    | some i => some (i + 1)
    | none => if x = c then some 0 else none

/-- Split on `'/'`, as the repeated `strings.Cut(remaining, "/")` loop of
Go's `resolvePath` does; always returns at least one (possibly empty)
segment. -/
def splitOnSlash : Str → List Str
  | [] => [[]]
  | c :: rest =>
    if c = '/' then [] :: splitOnSlash rest
    else
      match splitOnSlash rest with
      | [] => [[c]]
      | s :: ss => (c :: s) :: ss

/-- Model of Go's `net/url.URL` (fields used by this package; no userinfo,
no `ForceQuery`/`OmitHost`). `opq` is the Go `Opaque` field. -/
structure GoURL where
  scheme : Str
  opq : Str
  host : Str
  path : Str
  rawQuery : Str
  fragment : Str
deriving DecidableEq, Repr

/-- Characters allowed inside a URL scheme after its first letter. -/
def isSchemeChar (c : Char) : Bool :=
  c.isAlpha || c.isDigit || c == '+' || c == '-' || c == '.'

/-- Go `net/url`'s `getScheme`: `none` is the "missing protocol scheme"
error (the string starts with `':'`); otherwise returns the scheme (empty
when there is none) and the remainder. -/
def getScheme (s : Str) : Option (Str × Str) :=
  match s with
  | [] => some ([], [])
  | c :: _ =>
    if c = ':' then none
    else if ¬ c.isAlpha then some ([], s)
    else
      match s.dropWhile isSchemeChar with
      | ':' :: rest2 => some (s.takeWhile isSchemeChar, rest2)
      | _ => some ([], s)

/-- One step of the dot-segment removal loop in Go's `resolvePath`; the
state is the builder contents (which always start with `'/'`) and the
`first` flag. -/
def dotStep (st : Str × Bool) (elem : Str) : Str × Bool :=
  if elem = lit "." then (st.1, false)
  else if elem = lit ".." then
    let str := st.1.drop 1
    match lastIndexOf '/' str with
    | none => (['/'], true)
    | some i => ('/' :: str.take i, false)
  else
    (if st.2 then st.1 ++ elem else st.1 ++ '/' :: elem, false)

/-- The dot-segment removal part of Go's `resolvePath`, applied to the
already-merged path `full`. -/
def resolveFull (full : Str) : Str :=
  if full = [] then []
  else
    let elems := splitOnSlash full
    let dst := (elems.foldl dotStep (['/'], true)).1
    let dst :=
      if elems.getLast? = some (lit ".") ∨ elems.getLast? = some (lit "..") then
        dst ++ ['/']
      else dst
    match dst with
    | a :: b :: t => if b = '/' then b :: t else a :: b :: t
    | short => short

/-- Go `net/url`'s `resolvePath(base, ref)`: merge `ref` against `base`
and remove dot segments. -/
def resolvePath (base ref : Str) : Str :=
  let full :=
    if ref = [] then base
    else if ref.head? ≠ some '/' then
      match lastIndexOf '/' base with
      | none => ref
      | some i => base.take (i + 1) ++ ref
    else ref
  resolveFull full

/-- Host part of an authority: everything after the last `'@'`
(userinfo is dropped, as in Go's `parseAuthority`; host validation and
IPv6 brackets are outside the model). -/
def afterAtHost (authority : Str) : Str :=
  match lastIndexOf '@' authority with
  | none => authority
  | some i => authority.drop (i + 1)

/-- Go `net/url`'s internal `parse(rest, viaRequest := false)` on a string
that already had its fragment cut off.  `none` models a parse error
(leading `':'`, or a colon in the first segment of a schemeless relative
path). -/
def parseNoFrag (s : Str) : Option GoURL :=
  match getScheme s with
  | none => none
  | some (schemeRaw, rest) =>
    let scheme := schemeRaw.map Char.toLower
    let qcut := cutAt '?' rest
    let rest1 := qcut.1
    let rawQuery := qcut.2
    if rest1.head? ≠ some '/' then
      if scheme ≠ [] then
        some { scheme := scheme, opq := rest1, host := [], path := [],
               rawQuery := rawQuery, fragment := [] }
      else if rest1 = [] then
        some { scheme := [], opq := [], host := [], path := [],
               rawQuery := rawQuery, fragment := [] }
      else if (rest1.takeWhile (fun c => c ≠ '/')).contains ':' then none
      else
        some { scheme := [], opq := [], host := [], path := rest1,
               rawQuery := rawQuery, fragment := [] }
    else
      if rest1.take 2 = lit "//" ∧ (scheme ≠ [] ∨ ¬ rest1.take 3 = lit "///") then
        let afterSlashes := rest1.drop 2
        let authority := afterSlashes.takeWhile (fun c => c ≠ '/')
        some { scheme := scheme, opq := [], host := afterAtHost authority,
               path := afterSlashes.dropWhile (fun c => c ≠ '/'),
               rawQuery := rawQuery, fragment := [] }
      else
        some { scheme := scheme, opq := [], host := [], path := rest1,
               rawQuery := rawQuery, fragment := [] }

/-- Go `net/url.Parse`: cut the fragment at the first `'#'`, parse the
remainder, and store the fragment. -/
def parseURL (s : Str) : Option GoURL :=
  let cut := cutAt '#' s
  match parseNoFrag cut.1 with
  | none => none
  | some q => some { q with fragment := cut.2 }

/-- Go `(*URL).IsAbs`. -/
def urlIsAbs (u : GoURL) : Bool := u.scheme ≠ []

/-- Go `(*URL).ResolveReference` (no userinfo / `ForceQuery` in the model). -/
def resolveReference (u ref : GoURL) : GoURL :=
  let url0 := if ref.scheme = [] then { ref with scheme := u.scheme } else ref
  if ref.scheme ≠ [] ∨ ref.host ≠ [] then
    { url0 with path := resolvePath ref.path [] }
  else if ref.opq ≠ [] then
    { url0 with host := [], path := [] }
  else
    let url1 :=
      if ref.path = [] ∧ ref.rawQuery = [] then
        { url0 with rawQuery := u.rawQuery,
                    fragment := if ref.fragment = [] then u.fragment else ref.fragment }
      else url0
    { url1 with host := u.host, path := resolvePath u.path ref.path }

/-- Go `(*URL).String` (no escaping, userinfo or `OmitHost` in the model). -/
def urlString (u : GoURL) : Str :=
  let b := if u.scheme ≠ [] then u.scheme ++ [':'] else []
  let b :=
    if u.opq ≠ [] then b ++ u.opq
    else
      let b :=
        if u.scheme ≠ [] ∨ u.host ≠ [] then
          (if u.host ≠ [] ∨ u.path ≠ [] then b ++ lit "//" else b) ++ u.host
        else b
      let b :=
        if u.path ≠ [] ∧ u.path.head? ≠ some '/' ∧ u.host ≠ [] then b ++ ['/'] else b
      let b :=
        if b = [] ∧ (u.path.takeWhile (fun c => c ≠ '/')).contains ':' then
          b ++ lit "./"
        else b
      b ++ u.path
  let b := if u.rawQuery ≠ [] then b ++ '?' :: u.rawQuery else b
  if u.fragment ≠ [] then b ++ '#' :: u.fragment else b

/-- Go `(*URL).Hostname` applied to a host possibly carrying a port:
strip everything from the last `':'` (IPv6 brackets outside the model). -/
def hostnameOf (host : Str) : Str :=
  match lastIndexOf ':' host with
  | none => host
  | some i => host.take i

/-- The origin of a parsed URL: scheme plus host (including any port). -/
def urlOrigin (u : GoURL) : Str := u.scheme ++ lit "://" ++ u.host

/-- Configuration of a `crawler` (the `domain` and `linkAttributes` fields;
the loggers are modelled as accumulated lists in crawl results). -/
structure CrawlerCfg where
  domain : Str
  linkAttributes : List Str
deriving DecidableEq, Repr

/-- The last lines of `normalizeURL`: clear the fragment, render the URL,
right-trim trailing slashes, and accept exactly when the configured domain
is a string-prefix of the result (`strings.HasPrefix` in the source). -/
def finishNormalize (cfg : CrawlerCfg) (q : GoURL) : Str × Bool :=
  let normalized := trimRightChar '/' (urlString { q with fragment := [] })
  if cfg.domain.isPrefixOf normalized then (normalized, true) else ([], false)

/-- The tail of `normalizeURL` once the input has parsed: the scheme check,
resolution of relative references against the domain when the parsed URL is
not absolute (a parse failure of the domain returns `("", false)`), then
`finishNormalize`. -/
def normalizeParsed (cfg : CrawlerCfg) (p : GoURL) : Str × Bool :=
  if p.scheme = lit "javascript" then ([], false)
  else if urlIsAbs p then finishNormalize cfg p
  else
    match parseURL cfg.domain with
    | none => ([], false)
    | some base => finishNormalize cfg (resolveReference base p)

/-- `(*crawler).normalizeURL`: normalizes a URL and checks it belongs to
the configured domain. -/
def normalizeURL (cfg : CrawlerCfg) (href : Str) : Str × Bool :=
  if trimSpace href = [] then ([], false)
  else
    match parseURL href with
    | none => ([], false)
    | some p => normalizeParsed cfg p

/-- An HTML attribute as produced by the tokenizer. -/
structure Attr where
  key : Str
  val : Str
deriving DecidableEq, Repr

/-- Tokens of `golang.org/x/net/html`'s tokenizer that `extractLinks`
distinguishes: start tags, self-closing tags, and everything else
(text, end tags, comments, doctypes); the token stream ends where the
`ErrorToken` would appear. -/
inductive Tok where
  | startTag (nm : Str) (attrs : List Attr)
  | selfClosing (nm : Str) (attrs : List Attr)
  | other
deriving DecidableEq, Repr

/-- The `<a>`-tag branch of `extractLinks`: collect the (normalized) value
of every `href` attribute. -/
def linksFromAnchor (cfg : CrawlerCfg) : List Attr → List Str
  | [] => []
  | attr :: rest =>
    if attr.key = lit "href" then
      let r := normalizeURL cfg attr.val
      if r.2 then r.1 :: linksFromAnchor cfg rest else linksFromAnchor cfg rest
    else linksFromAnchor cfg rest

/-- The non-anchor branch of `extractLinks`: collect the (normalized) value
of every attribute whose key is among the configured link attributes. -/
def linksFromOther (cfg : CrawlerCfg) : List Attr → List Str
  | [] => []
  | attr :: rest =>
    if attr.key ∈ cfg.linkAttributes then
      let r := normalizeURL cfg attr.val
      if r.2 then r.1 :: linksFromOther cfg rest else linksFromOther cfg rest
    else linksFromOther cfg rest

/-- Links collected from a single start or self-closing tag. -/
def tagLinks (cfg : CrawlerCfg) (nm : Str) (attrs : List Attr) : List Str :=
  if nm = lit "a" then linksFromAnchor cfg attrs else linksFromOther cfg attrs

/-- `(*crawler).extractLinks` over the token stream of a document. -/
def extractLinks (cfg : CrawlerCfg) : List Tok → List Str
  | [] => []
  | Tok.startTag nm attrs :: rest => tagLinks cfg nm attrs ++ extractLinks cfg rest
  | Tok.selfClosing nm attrs :: rest => tagLinks cfg nm attrs ++ extractLinks cfg rest
  | Tok.other :: rest => extractLinks cfg rest

/-- The `crawlerURL` struct: a URL with its content checksum and the
timestamp (a tick count in the model) of the last detected change. -/
structure CrawlerURLRec where
  link : Str
  checksum : Str
  lastChanged : Nat
deriving DecidableEq, Repr

/-- The two `map[string]crawlerURL` maps of the crawler, as association
lists queried with `List.lookup`. -/
abbrev LinkMap := List (Str × CrawlerURLRec)

/-- The environment a crawl cycle runs in: the HTTP client (`none` models
transport errors, refused redirects and non-200 statuses), the HTML
tokenizer applied to a body, and the content hash (`crypto/sha256` in the
source). -/
structure CrawlEnv where
  fetch : Str → Option Str
  tokenize : Str → List Tok
  hash : Str → Str

/-- Mutable state of one crawl cycle: the `visited` map plus the observable
effect streams (HTTP GETs with their success flag, info-logger calls,
error-logger calls) and the `time.Now` tick. -/
structure CycleState where
  visited : LinkMap
  fetchLog : List (Str × Bool)
  infoLog : List Str
  errLog : List Str
  tick : Nat
deriving DecidableEq, Repr

/-- The queue-processing loop of `(*crawler).crawl` (lines dequeuing,
deduplicating against `visited`, fetching, extracting and enqueuing links,
hashing the body and recording the `crawlerURL`).  `fuel` bounds the number
of iterations; every theorem below holds for all fuel values. -/
def crawlLoop (cfg : CrawlerCfg) (env : CrawlEnv) :
    Nat → List Str → CycleState → CycleState
  | 0, _, st => st
  | _ + 1, [], st => st
  | fuel + 1, currentURL :: rest, st =>
    if (st.visited.lookup currentURL).isSome then
      crawlLoop cfg env fuel rest st
    else
      match env.fetch currentURL with
      | none =>
        crawlLoop cfg env fuel rest
          { st with fetchLog := st.fetchLog ++ [(currentURL, false)],
                    errLog := st.errLog ++ [currentURL] }
      | some body =>
        let entry : CrawlerURLRec :=
          { link := currentURL, checksum := env.hash body, lastChanged := st.tick }
        crawlLoop cfg env fuel
          (rest ++ (extractLinks cfg (env.tokenize body)).filter
            (fun l => (st.visited.lookup l).isNone))
          { st with visited := (currentURL, entry) :: st.visited,
                    fetchLog := st.fetchLog ++ [(currentURL, true)],
                    infoLog := st.infoLog ++ [currentURL],
                    tick := st.tick + 1 }

/-- The reconciliation loop at the end of `(*crawler).crawl`: rebuild the
durable `links` map from `visited`, keeping the previous record (and hence
its `lastChanged`) whenever the checksum is unchanged. -/
def reconcile (links0 : LinkMap) : LinkMap → LinkMap
  | [] => []
  | (k, v) :: rest =>
    (k, match links0.lookup k with
        | some old => if v.checksum ≠ old.checksum then v else old
        | none => v) :: reconcile links0 rest

/-- Result of one call to `(*crawler).crawl`: the crawler's two maps after
the cycle together with the cycle's observable effects. -/
structure CrawlOutcome where
  visited : LinkMap
  links : LinkMap
  fetchLog : List (Str × Bool)
  infoLog : List Str
  errLog : List Str
deriving DecidableEq, Repr

/-- `(*crawler).crawl`: reset `visited`, normalize the seed (returning
immediately when that fails), run the queue loop, then replace `links`
with the reconciled map. -/
def crawl (cfg : CrawlerCfg) (env : CrawlEnv) (fuel : Nat)
    (links0 : LinkMap) (seed : Str) : CrawlOutcome :=
  let norm := normalizeURL cfg seed
  if norm.2 then
    let st := crawlLoop cfg env fuel [norm.1]
      { visited := [], fetchLog := [], infoLog := [], errLog := [], tick := 0 }
    { visited := st.visited, links := reconcile links0 st.visited,
      fetchLog := st.fetchLog, infoLog := st.infoLog, errLog := st.errLog }
  else
    { visited := [], links := links0, fetchLog := [], infoLog := [], errLog := [] }

/-- `(*crawler).getLinks`: the values of the durable `links` map. -/
def getLinks (links : LinkMap) : List CrawlerURLRec := links.map Prod.snd

/-- The two stimuli that reach the scheduling goroutine's `select`:
a ticker tick and a manual `RecrawlSite` trigger. -/
inductive Stimulus where
  | tick
  | trigger
deriving DecidableEq, Repr

/-- Observable events of the scheduling goroutine: a crawl cycle and an
invocation of the configured callback. -/
inductive SchedEvent where
  | crawlEv
  | callbackEv
deriving DecidableEq, Repr

/-- The events of the `select` loop in `NewSiteMapper`'s goroutine: for
each received stimulus (ticker tick or manual trigger) one crawl followed
by one callback invocation. -/
def stimuliEvents : List Stimulus → List SchedEvent
  | [] => []
  | Stimulus.tick :: rest =>
    SchedEvent.crawlEv :: SchedEvent.callbackEv :: stimuliEvents rest
  | Stimulus.trigger :: rest =>
    SchedEvent.crawlEv :: SchedEvent.callbackEv :: stimuliEvents rest

/-- The event trace of the goroutine started by `NewSiteMapper`, given the
serialized order in which ticker ticks and manual triggers are received:
one startup crawl (with no callback after it), then the `select` loop. -/
def schedulerTrace (stimuli : List Stimulus) : List SchedEvent :=
  SchedEvent.crawlEv :: stimuliEvents stimuli

/-- The option fields checked by the setters relevant to construction-time
validation (loggers and the callback carry no validation).  Durations are
Go `time.Duration` values, i.e. signed integers. -/
structure SiteMapperOptions where
  domain : Str
  durationBeforeFirstCrawl : Int
  crawlInterval : Int
  startingURL : Str
  linkAttributes : List Str
deriving DecidableEq, Repr

/-- `DefaultOptions` (validated fields). -/
def defaultOptions : SiteMapperOptions :=
  { domain := lit "http://localhost:8080",
    durationBeforeFirstCrawl := 3 * 1000000000,
    crawlInterval := 7 * 24 * 60 * 60 * 1000000000,
    startingURL := lit "/",
    linkAttributes := [] }

/-- `(*SiteMapperOptions).SetDomain`: returns the error message (if any)
and the options value afterwards (the receiver is only assigned on
success). -/
def setDomain (o : SiteMapperOptions) (domain : Str) : Option Str × SiteMapperOptions :=
  match parseURL domain with
  | none => (some (lit "invalid domain: must be a valid URL"), o)
  | some p =>
    if p.scheme ≠ lit "http" ∧ p.scheme ≠ lit "https" then
      (some (lit "invalid domain: scheme must be 'http' or 'https'"), o)
    else if p.path ≠ [] ∧ p.path ≠ lit "/" then
      (some (lit "invalid domain: must not include a relative path"), o)
    else if hostnameOf p.host = [] then
      (some (lit "invalid domain: must include a host"), o)
    else
      (none, { o with domain := trimRightChar '/' domain })

/-- `(*SiteMapperOptions).SetDurationBeforeFirstCrawl`. -/
def setDurationBeforeFirstCrawl (o : SiteMapperOptions) (d : Int) :
    Option Str × SiteMapperOptions :=
  if d < 0 then (some (lit "invalid duration: cannot be negative"), o)
  else (none, { o with durationBeforeFirstCrawl := d })

/-- `(*SiteMapperOptions).SetCrawlInterval`. -/
def setCrawlInterval (o : SiteMapperOptions) (i : Int) :
    Option Str × SiteMapperOptions :=
  if i < 0 then (some (lit "invalid interval: cannot be negative"), o)
  else (none, { o with crawlInterval := i })

/-- `(*SiteMapperOptions).SetStartingURL`. -/
def setStartingURL (o : SiteMapperOptions) (urlPath : Str) :
    Option Str × SiteMapperOptions :=
  match parseURL urlPath with
  | none => (some (lit "invalid starting URL: must be a valid relative path"), o)
  | some p =>
    if urlIsAbs p ∨ ¬ (lit "/").isPrefixOf urlPath then
      (some (lit "invalid starting URL: must be a valid relative path"), o)
    else (none, { o with startingURL := urlPath })

/-- `(*SiteMapperOptions).SetLinkAttributes`. -/
def setLinkAttributes (o : SiteMapperOptions) (attributes : List Str) :
    Option Str × SiteMapperOptions :=
  if attributes = [] then
    (some (lit "invalid link attributes: must provide at least one attribute"), o)
  else (none, { o with linkAttributes := attributes })

/-- The malformed-domain conditions named by the specification: the string
does not parse, its scheme is not http(s), its path is not the root, or it
has no host. -/
def domainInvalidB (d : Str) : Bool :=
  match parseURL d with
  | none => true
  | some p =>
    (decide (p.scheme ≠ lit "http") && decide (p.scheme ≠ lit "https")) ||
    (decide (p.path ≠ []) && decide (p.path ≠ lit "/")) ||
    decide (hostnameOf p.host = [])

/-- Characters this model of Go's `regexp` does not treat literally. -/
def isRegexMeta (c : Char) : Bool :=
  c == '\\' || c == '.' || c == '+' || c == '*' || c == '?' || c == '(' ||
  c == ')' || c == '|' || c == '[' || c == ']' || c == '^' || c == '$'

/-- Model of `regexp.Compile` restricted to literal patterns: a pattern
free of metacharacters always compiles (in particular the empty pattern
does); patterns using metacharacters are outside the model. -/
def regexpCompile (pattern : Str) : Option Str :=
  if pattern.all (fun c => ¬ isRegexMeta c) then some pattern else none

/-- Model of `(*Regexp).MatchString` for a literal pattern: substring
containment; the empty pattern matches every string, as in Go. -/
def literalMatch (pat : Str) : Str → Bool
  | [] => pat.isPrefixOf []
  | c :: rest => pat.isPrefixOf (c :: rest) || literalMatch pat rest

/-- `replaceDomain` from `sitemap.go`. -/
def replaceDomain (link oldDomain newDomain : Str) : Str :=
  if oldDomain.isPrefixOf link then newDomain ++ link.drop oldDomain.length
  else link

/-- A `url` entry of the generated `urlset` (`loc` plus the `lastmod`
source value; date formatting is outside the model). -/
structure SitemapURL where
  location : Str
  lastModified : Nat
deriving DecidableEq, Repr

/-- `(*SiteMapper).GenerateSitemap`, returning the `url` entries of the
`urlset` document (XML rendering, which cannot fail for this structure, is
outside the model): links matching the filter are skipped, the others get
their domain replaced. -/
def generateSitemap (links : List CrawlerURLRec) (domain newDomain : Str)
    (filterPattern : Str) : Except Str (List SitemapURL) :=
  match regexpCompile filterPattern with
  | none => Except.error (lit "invalid filter pattern provided")
  | some filt =>
    Except.ok (links.filterMap (fun l =>
      if literalMatch filt l.link then none
      else some { location := replaceDomain l.link domain newDomain,
                  lastModified := l.lastChanged }))

/-- The raw candidate values described by the specification for one start
or self-closing tag: from an anchor tag the values of its `href`
attributes only; from any other tag the values of the attributes whose
name is in the configured set. -/
def specTagRaw (attrsCfg : List Str) (nm : Str) (attrs : List Attr) : List Str :=
  if nm = lit "a" then
    (attrs.filter (fun a => decide (a.key = lit "href"))).map Attr.val
  else
    (attrs.filter (fun a => decide (a.key ∈ attrsCfg))).map Attr.val

/-- The raw candidate values of a whole token stream, in document order. -/
def specRawCandidates (attrsCfg : List Str) : List Tok → List Str
  | [] => []
  | Tok.startTag nm attrs :: rest =>
    specTagRaw attrsCfg nm attrs ++ specRawCandidates attrsCfg rest
  | Tok.selfClosing nm attrs :: rest =>
    specTagRaw attrsCfg nm attrs ++ specRawCandidates attrsCfg rest
  | Tok.other :: rest => specRawCandidates attrsCfg rest

/-- The extractor as the specification words it: the raw candidates, each
passed through the normalizer, keeping exactly the accepted results in
document order. -/
def specExtract (cfg : CrawlerCfg) (toks : List Tok) : List Str :=
  (specRawCandidates cfg.linkAttributes toks).filterMap (fun raw =>
    let r := normalizeURL cfg raw
    if r.2 then some r.1 else none)

/-- URLs of the successful HTTP GETs in a fetch log, in order. -/
def successList (log : List (Str × Bool)) : List Str :=
  (log.filter (fun e => e.2)).map Prod.fst

/-- Fixture: a crawler scoped to `http://e.com` with no extra link
attributes. -/
def exCfg : CrawlerCfg := { domain := lit "http://e.com", linkAttributes := [] }

/-- Fixture: a one-page site whose root document contains two anchors to
the same path `/x`. -/
def exTokenize (body : Str) : List Tok :=
  if body = lit "root" then
    [Tok.startTag (lit "a") [{ key := lit "href", val := lit "/x" }],
     Tok.startTag (lit "a") [{ key := lit "href", val := lit "/x" }]]
  else []

/-- Fixture: the root fetch succeeds, every other fetch fails. -/
def exFetch (u : Str) : Option Str :=
  if u = lit "http://e.com" then some (lit "root") else none

/-- Fixture environment combining `exFetch` and `exTokenize`, hashing a
body to itself. -/
def exEnv : CrawlEnv := { fetch := exFetch, tokenize := exTokenize, hash := fun b => b }

/-- Fixture: a durable record for the root page carrying the checksum the
fixture environment reproduces and a distinguishable timestamp. -/
def oldRec : CrawlerURLRec :=
  { link := lit "http://e.com", checksum := lit "root", lastChanged := 99 }

/-- Fixture: a crawler scoped to `http://example.com`. -/
def evilCfg : CrawlerCfg := { domain := lit "http://example.com", linkAttributes := [] }

theorem head?_dropWhile_bool (p : Char → Bool) :
    ∀ (l : Str) (a : Char), (l.dropWhile p).head? = some a → p a = false := by
  intro l
  induction l with
  | nil => intro a h; simp [List.dropWhile] at h
  | cons c rest ih =>
    intro a h
    by_cases hc : p c
    · rw [List.dropWhile_cons_of_pos hc] at h
      exact ih a h
    · rw [List.dropWhile_cons_of_neg hc] at h
      simp only [List.head?_cons, Option.some.injEq] at h
      subst h
      exact Bool.eq_false_iff.mpr hc

theorem trimRightChar_getLast (c : Char) (s : Str) :
    (trimRightChar c s).getLast? ≠ some c := by
  intro h
  rw [trimRightChar, List.getLast?_reverse] at h
  have := head?_dropWhile_bool (fun x => x == c) s.reverse c h
  simp at this

theorem trimSpace_eq_nil (s : Str) :
    trimSpace s = [] ↔ ∀ c ∈ s, isSpaceChar c = true := by
  rw [trimSpace, List.reverse_eq_nil_iff]
  constructor
  · intro h c hc
    have h1 : ∀ x ∈ (s.dropWhile isSpaceChar).reverse, isSpaceChar x :=
      List.dropWhile_eq_nil_iff.mp h
    rcases (List.mem_append.mp
        ((List.takeWhile_append_dropWhile (p := isSpaceChar) (l := s)) ▸ hc)) with h2 | h2
    · exact List.mem_takeWhile_imp h2
    · exact h1 c (List.mem_reverse.mpr h2)
  · intro h
    have h1 : s.dropWhile isSpaceChar = [] :=
      List.dropWhile_eq_nil_iff.mpr (fun x hx => h x hx)
    simp [h1]

theorem cutAt_hash_append (u f : Str) :
    (cutAt '#' (u ++ '#' :: f)).1 = (cutAt '#' u).1 := by
  induction u with
  | nil => simp [cutAt]
  | cons c rest ih =>
    by_cases hc : c = '#' <;> simp [cutAt, hc, ih]

theorem finishNormalize_congr (cfg : CrawlerCfg) (q q' : GoURL)
    (h1 : q.scheme = q'.scheme) (h2 : q.opq = q'.opq) (h3 : q.host = q'.host)
    (h4 : q.path = q'.path) (h5 : q.rawQuery = q'.rawQuery) :
    finishNormalize cfg q = finishNormalize cfg q' := by
  cases q
  cases q'
  simp only at h1 h2 h3 h4 h5
  subst h1 h2 h3 h4 h5
  rfl

theorem resolveReference_fragment_eq (cfg : CrawlerCfg) (b : GoURL)
    (sch op ho pa qu f fr : Str) :
    finishNormalize cfg (resolveReference b ⟨sch, op, ho, pa, qu, f⟩) =
    finishNormalize cfg (resolveReference b ⟨sch, op, ho, pa, qu, fr⟩) := by
  cases b
  simp only [resolveReference]
  split_ifs <;> apply finishNormalize_congr <;> rfl

theorem normalizeParsed_fragment (cfg : CrawlerCfg) (p : GoURL) (f : Str) :
    normalizeParsed cfg { p with fragment := f } = normalizeParsed cfg p := by
  rcases p with ⟨sch, op, ho, pa, qu, fr⟩
  by_cases h1 : sch = lit "javascript"
  · rw [normalizeParsed, normalizeParsed, if_pos h1, if_pos h1]
  · by_cases h2 : urlIsAbs ⟨sch, op, ho, pa, qu, fr⟩
    · have h2' : urlIsAbs ⟨sch, op, ho, pa, qu, f⟩ = true := h2
      rw [normalizeParsed, normalizeParsed, if_neg h1, if_neg h1,
        if_pos h2', if_pos h2]
      exact finishNormalize_congr cfg _ _ rfl rfl rfl rfl rfl
    · have h2' : ¬ urlIsAbs ⟨sch, op, ho, pa, qu, f⟩ = true := h2
      rw [normalizeParsed, normalizeParsed, if_neg h1, if_neg h1,
        if_neg h2', if_neg h2]
      rcases hb : parseURL cfg.domain with _ | base
      · rfl
      · exact resolveReference_fragment_eq cfg base sch op ho pa qu f fr

theorem finishNormalize_accept (cfg : CrawlerCfg) (q : GoURL) (s : Str)
    (h : finishNormalize cfg q = (s, true)) :
    cfg.domain.isPrefixOf s = true ∧ s.getLast? ≠ some '/' := by
  simp only [finishNormalize] at h
  split_ifs at h with hp
  · have hs : trimRightChar '/' (urlString { q with fragment := [] }) = s :=
      congrArg Prod.fst h
    subst hs
    exact ⟨hp, trimRightChar_getLast '/' _⟩
  · exact absurd (congrArg Prod.snd h) (by simp)

theorem normalizeParsed_accept (cfg : CrawlerCfg) (p : GoURL) (s : Str)
    (h : normalizeParsed cfg p = (s, true)) :
    cfg.domain.isPrefixOf s = true ∧ s.getLast? ≠ some '/' := by
  by_cases h1 : p.scheme = lit "javascript"
  · rw [normalizeParsed, if_pos h1] at h
    exact absurd (congrArg Prod.snd h) (by simp)
  · by_cases h2 : urlIsAbs p
    · rw [normalizeParsed, if_neg h1, if_pos h2] at h
      exact finishNormalize_accept cfg p s h
    · rw [normalizeParsed, if_neg h1, if_neg h2] at h
      cases hb : parseURL cfg.domain with
      | none =>
        rw [hb] at h
        exact absurd (congrArg Prod.snd h) (by simp)
      | some base =>
        rw [hb] at h
        exact finishNormalize_accept cfg _ s h

theorem normalizeURL_accept (cfg : CrawlerCfg) (href s : Str)
    (h : normalizeURL cfg href = (s, true)) :
    cfg.domain.isPrefixOf s = true ∧ s.getLast? ≠ some '/' := by
  by_cases h1 : trimSpace href = []
  · rw [normalizeURL, if_pos h1] at h
    exact absurd (congrArg Prod.snd h) (by simp)
  · rw [normalizeURL, if_neg h1] at h
    cases hp : parseURL href with
    | none =>
      rw [hp] at h
      exact absurd (congrArg Prod.snd h) (by simp)
    | some p =>
      rw [hp] at h
      exact normalizeParsed_accept cfg p s h

theorem normalizeURL_fragment_append (cfg : CrawlerCfg) (u f s : Str)
    (h : normalizeURL cfg u = (s, true)) :
    normalizeURL cfg (u ++ '#' :: f) = (s, true) := by
  have hts : ¬ trimSpace u = [] := by
    intro hx
    rw [normalizeURL, if_pos hx] at h
    exact absurd (congrArg Prod.snd h) (by simp)
  have hts2 : ¬ trimSpace (u ++ '#' :: f) = [] := by
    intro hx
    have : isSpaceChar '#' = true := (trimSpace_eq_nil _).mp hx '#' (by simp)
    simp [isSpaceChar] at this
  rcases hq : parseNoFrag (cutAt '#' u).1 with _ | q
  · rw [normalizeURL, if_neg hts] at h
    simp only [parseURL, hq] at h
    exact absurd (congrArg Prod.snd h) (by simp)
  · rw [normalizeURL, if_neg hts] at h
    simp only [parseURL, hq] at h
    rw [normalizeURL, if_neg hts2]
    simp only [parseURL, cutAt_hash_append, hq]
    rcases q with ⟨sch, op, ho, pa, qu, fr⟩
    calc normalizeParsed cfg ⟨sch, op, ho, pa, qu, (cutAt '#' (u ++ '#' :: f)).2⟩
        = normalizeParsed cfg ⟨sch, op, ho, pa, qu, fr⟩ :=
          normalizeParsed_fragment cfg ⟨sch, op, ho, pa, qu, fr⟩ _
      _ = normalizeParsed cfg ⟨sch, op, ho, pa, qu, (cutAt '#' u).2⟩ :=
          (normalizeParsed_fragment cfg ⟨sch, op, ho, pa, qu, fr⟩ _).symm
      _ = (s, true) := h

theorem reconcile_lookup (links0 v : LinkMap) (u : Str) :
    (reconcile links0 v).lookup u =
      match v.lookup u with
      | none => none
      | some w =>
        match links0.lookup u with
        | none => some w
        | some old => if w.checksum = old.checksum then some old else some w := by
  induction v with
  | nil => simp [reconcile]
  | cons kv rest ih =>
    obtain ⟨k, w⟩ := kv
    by_cases hk : u = k
    · subst hk
      simp only [reconcile, List.lookup, beq_self_eq_true]
      cases ho : links0.lookup u with
      | none => simp
      | some old =>
        by_cases hc : w.checksum = old.checksum
        · simp [hc]
        · simp [hc]
    · have hbeq : (u == k) = false := beq_eq_false_iff_ne.mpr hk
      simp only [reconcile, List.lookup, hbeq]
      exact ih

theorem successList_append_true (log : List (Str × Bool)) (u : Str) :
    successList (log ++ [(u, true)]) = successList log ++ [u] := by
  simp [successList]

theorem successList_append_false (log : List (Str × Bool)) (u : Str) :
    successList (log ++ [(u, false)]) = successList log := by
  simp [successList]

theorem crawlLoop_inv (cfg : CrawlerCfg) (env : CrawlEnv) :
    ∀ (fuel : Nat) (queue : List Str) (st : CycleState),
      (successList st.fetchLog).Nodup →
      (∀ u, u ∈ successList st.fetchLog ↔ (st.visited.lookup u).isSome = true) →
      (successList (crawlLoop cfg env fuel queue st).fetchLog).Nodup ∧
      (∀ u, u ∈ successList (crawlLoop cfg env fuel queue st).fetchLog ↔
        ((crawlLoop cfg env fuel queue st).visited.lookup u).isSome = true) := by
  intro fuel
  induction fuel with
  | zero =>
    intro queue st h1 h2
    rw [crawlLoop]
    exact ⟨h1, h2⟩
  | succ n ih =>
    intro queue st h1 h2
    cases queue with
    | nil =>
      rw [crawlLoop]
      exact ⟨h1, h2⟩
    | cons cur rest =>
      rw [crawlLoop]
      by_cases hv : (st.visited.lookup cur).isSome = true
      · rw [if_pos hv]
        exact ih rest st h1 h2
      · rw [if_neg hv]
        cases hf : env.fetch cur with
        | none =>
          refine ih rest _ ?_ ?_
          · dsimp only
            rw [successList_append_false]
            exact h1
          · intro u
            dsimp only
            rw [successList_append_false]
            exact h2 u
        | some body =>
          refine ih _ _ ?_ ?_
          · dsimp only
            rw [successList_append_true]
            rw [List.nodup_append]
            refine ⟨h1, List.nodup_singleton cur, ?_⟩
            intro x hx hx1
            rw [List.mem_singleton] at hx1
            subst hx1
            exact hv ((h2 x).mp hx)
          · intro u
            dsimp only
            rw [successList_append_true]
            by_cases hu : u = cur
            · subst hu
              simp [List.lookup]
            · have hbeq : (u == cur) = false := beq_eq_false_iff_ne.mpr hu
              simp only [List.mem_append, List.mem_singleton, hu, or_false,
                List.lookup, hbeq]
              exact h2 u

theorem crawl_of_ok (cfg : CrawlerCfg) (env : CrawlEnv) (fuel : Nat)
    (links0 : LinkMap) (seed : Str) (h : (normalizeURL cfg seed).2 = true) :
    crawl cfg env fuel links0 seed =
      { visited := (crawlLoop cfg env fuel [(normalizeURL cfg seed).1]
          ⟨[], [], [], [], 0⟩).visited,
        links := reconcile links0 (crawlLoop cfg env fuel
          [(normalizeURL cfg seed).1] ⟨[], [], [], [], 0⟩).visited,
        fetchLog := (crawlLoop cfg env fuel [(normalizeURL cfg seed).1]
          ⟨[], [], [], [], 0⟩).fetchLog,
        infoLog := (crawlLoop cfg env fuel [(normalizeURL cfg seed).1]
          ⟨[], [], [], [], 0⟩).infoLog,
        errLog := (crawlLoop cfg env fuel [(normalizeURL cfg seed).1]
          ⟨[], [], [], [], 0⟩).errLog } := by
  rw [crawl]
  simp only [h, if_true]

theorem crawl_of_fail (cfg : CrawlerCfg) (env : CrawlEnv) (fuel : Nat)
    (links0 : LinkMap) (seed : Str) (h : (normalizeURL cfg seed).2 = false) :
    crawl cfg env fuel links0 seed =
      { visited := [], links := links0, fetchLog := [], infoLog := [],
        errLog := [] } := by
  rw [crawl]
  simp only [h, Bool.false_eq_true, if_false]

theorem linksFromAnchor_eq (cfg : CrawlerCfg) (attrs : List Attr) :
    linksFromAnchor cfg attrs =
      ((attrs.filter (fun a => decide (a.key = lit "href"))).map Attr.val).filterMap
        (fun raw =>
          let r := normalizeURL cfg raw
          if r.2 then some r.1 else none) := by
  induction attrs with
  | nil => rfl
  | cons a rest ih =>
    by_cases hk : a.key = lit "href"
    · by_cases hr : (normalizeURL cfg a.val).2
      · simp [linksFromAnchor, hk, hr, ih]
      · simp [linksFromAnchor, hk, hr, ih]
    · simp [linksFromAnchor, hk, ih]

theorem linksFromOther_eq (cfg : CrawlerCfg) (attrs : List Attr) :
    linksFromOther cfg attrs =
      ((attrs.filter (fun a => decide (a.key ∈ cfg.linkAttributes))).map Attr.val).filterMap
        (fun raw =>
          let r := normalizeURL cfg raw
          if r.2 then some r.1 else none) := by
  induction attrs with
  | nil => rfl
  | cons a rest ih =>
    by_cases hk : a.key ∈ cfg.linkAttributes
    · by_cases hr : (normalizeURL cfg a.val).2
      · simp [linksFromOther, hk, hr, ih]
      · simp [linksFromOther, hk, hr, ih]
    · simp [linksFromOther, hk, ih]

theorem tagLinks_eq (cfg : CrawlerCfg) (nm : Str) (attrs : List Attr) :
    tagLinks cfg nm attrs =
      (specTagRaw cfg.linkAttributes nm attrs).filterMap
        (fun raw =>
          let r := normalizeURL cfg raw
          if r.2 then some r.1 else none) := by
  by_cases hn : nm = lit "a"
  · simp only [tagLinks, specTagRaw, if_pos hn]
    exact linksFromAnchor_eq cfg attrs
  · simp only [tagLinks, specTagRaw, if_neg hn]
    exact linksFromOther_eq cfg attrs

theorem literalMatch_nil (s : Str) : literalMatch [] s = true := by
  cases s <;> simp [literalMatch, List.isPrefixOf]

/-- The `TestNormalizeURL` vectors of the repository, checked against the
embedding. -/
theorem normalizeURL_test_vectors :
    normalizeURL evilCfg (lit "http://example.com/page") =
      (lit "http://example.com/page", true) ∧
    normalizeURL evilCfg (lit "/page") = (lit "http://example.com/page", true) ∧
    normalizeURL evilCfg (lit "javascript:void(0)") = ([], false) ∧
    normalizeURL evilCfg (lit "http://otherdomain.com") = ([], false) ∧
    normalizeURL evilCfg (lit "http://example.com/page#fragment") =
      (lit "http://example.com/page", true) ∧
    normalizeURL evilCfg (lit "") = ([], false) := by
  refine ⟨?_, ?_, ?_, ?_, ?_, ?_⟩ <;> decide

/-- The `TestSetDomain` vectors of the repository, checked against the
embedding. -/
theorem setDomain_test_vectors :
    (setDomain defaultOptions (lit "http://example.com")).1 = none ∧
    (setDomain defaultOptions (lit "ftp://invalid-scheme.com")).1 =
      some (lit "invalid domain: scheme must be 'http' or 'https'") ∧
    (setDomain defaultOptions (lit "http://example.com/home")).1 =
      some (lit "invalid domain: must not include a relative path") ∧
    (setDomain defaultOptions (lit "/home")).1 =
      some (lit "invalid domain: scheme must be 'http' or 'https'") ∧
    (setDomain defaultOptions (lit "http://:8080")).1 =
      some (lit "invalid domain: must include a host") ∧
    (setDomain defaultOptions (lit "")).1 =
      some (lit "invalid domain: scheme must be 'http' or 'https'") := by
  refine ⟨?_, ?_, ?_, ?_, ?_, ?_⟩ <;> decide

/-- C1, counterexample: with domain `http://example.com`, the input
`http://example.com.evil.org` is an absolute URL whose origin differs from
the domain origin, yet `normalizeURL` accepts it (the membership test is a
string-prefix match, not an origin comparison), contradicting the claim
that it must return `("", false)`. -/
theorem C1_counterexample :
    normalizeURL evilCfg (lit "http://example.com.evil.org") =
      (lit "http://example.com.evil.org", true) ∧
    (parseURL (lit "http://example.com.evil.org")).map urlOrigin ≠
      (parseURL evilCfg.domain).map urlOrigin := by
  refine ⟨?_, ?_⟩ <;> decide

/-- C1, amended: every input accepted by `normalizeURL` has the configured
domain string as a string-prefix of the returned URL (and inputs failing
that prefix test are rejected); this is weaker than origin equality, as a
host merely extending the domain's host can pass. -/
theorem C1_theorem (cfg : CrawlerCfg) (href s : Str)
    (h : normalizeURL cfg href = (s, true)) :
    cfg.domain.isPrefixOf s = true :=
  (normalizeURL_accept cfg href s h).1

/-- C1, witness: the accepted URL `http://e.com/x` carries the domain
`http://e.com` as a string-prefix. -/
theorem C1_witness :
    List.isPrefixOf (lit "http://e.com") (lit "http://e.com/x") = true :=
  C1_theorem exCfg (lit "/x") (lit "http://e.com/x") (by decide)

/-- C2, counterexample: with a root page containing two anchors to `/x`
and a failing fetch for `/x`, the URL `http://e.com/x` is enqueued twice,
is never marked visited (failed fetches do not enter `visited`), and is
therefore subject to two HTTP GETs within a single cycle, contradicting
the claim that every URL gets at most one GET per cycle. -/
theorem C2_counterexample :
    (crawl exCfg exEnv 5 [] (lit "/")).fetchLog =
      [(lit "http://e.com", true), (lit "http://e.com/x", false),
       (lit "http://e.com/x", false)] ∧
    ¬ ((crawl exCfg exEnv 5 [] (lit "/")).fetchLog.map Prod.fst).Nodup := by
  refine ⟨?_, ?_⟩ <;> decide

/-- C2, amended: a dequeued URL already present in the visited map of the
current cycle is skipped, so each URL is SUCCESSFULLY fetched at most once
per cycle; a URL whose fetch fails is not marked visited and may be
fetched again within the same cycle when it was enqueued several times. -/
theorem C2_theorem (cfg : CrawlerCfg) (env : CrawlEnv) (fuel : Nat)
    (links0 : LinkMap) (seed : Str) :
    (successList (crawl cfg env fuel links0 seed).fetchLog).Nodup := by
  by_cases hn : (normalizeURL cfg seed).2 = true
  · rw [crawl_of_ok cfg env fuel links0 seed hn]
    exact (crawlLoop_inv cfg env fuel [(normalizeURL cfg seed).1]
      ⟨[], [], [], [], 0⟩ (by simp [successList])
      (fun u => by simp [successList, List.lookup])).1
  · have hn' : (normalizeURL cfg seed).2 = false := by
      revert hn
      cases (normalizeURL cfg seed).2 <;> simp
    rw [crawl_of_fail cfg env fuel links0 seed hn']
    simp [successList]

/-- C5, counterexample: when no ticker tick and no manual trigger has been
received, the startup crawl cycle has completed but the configured
callback has never been invoked, contradicting the claim that the callback
runs after the startup-path cycle as well. -/
theorem C5_counterexample :
    schedulerTrace [] = [SchedEvent.crawlEv] ∧
    SchedEvent.callbackEv ∉ schedulerTrace [] := by
  refine ⟨rfl, ?_⟩
  decide

/-- C5, amended: the callback is invoked exactly once after each
periodic-timer or manual-trigger cycle, while the startup cycle is the one
crawl without a following callback (one more crawl than callbacks, always). -/
theorem C5_theorem (stimuli : List Stimulus) :
    (schedulerTrace stimuli).count SchedEvent.callbackEv = stimuli.length ∧
    (schedulerTrace stimuli).count SchedEvent.crawlEv = stimuli.length + 1 := by
  have aux : ∀ l : List Stimulus,
      (stimuliEvents l).count SchedEvent.callbackEv = l.length ∧
      (stimuliEvents l).count SchedEvent.crawlEv = l.length := by
    intro l
    induction l with
    | nil => simp [stimuliEvents]
    | cons s rest ih =>
      cases s <;> simp [stimuliEvents, List.count_cons, ih.1, ih.2]
  rw [schedulerTrace]
  simp [List.count_cons, (aux stimuli).1, (aux stimuli).2]

/-- C6, counterexample: for a seed whose normalization fails, the cycle
performs no fetch and leaves the durable link map unchanged, but contrary
to the claim nothing is logged: both the info log and the error log stay
empty. -/
theorem C6_counterexample :
    (normalizeURL exCfg (lit " ")).2 = false ∧
    crawl exCfg exEnv 5 [(lit "http://e.com", oldRec)] (lit " ") =
      { visited := [], links := [(lit "http://e.com", oldRec)], fetchLog := [],
        infoLog := [], errLog := [] } := by
  refine ⟨?_, ?_⟩ <;> decide

/-- C6, amended: if normalization of the seed URL fails, the crawl cycle
aborts as a no-op: no fetch occurs, no logger (info or error) is invoked,
no error is surfaced, the durable link map is unchanged, and the engine is
usable for the next cycle. -/
theorem C6_theorem (cfg : CrawlerCfg) (env : CrawlEnv) (fuel : Nat)
    (links0 : LinkMap) (seed : Str) (h : (normalizeURL cfg seed).2 = false) :
    crawl cfg env fuel links0 seed =
      { visited := [], links := links0, fetchLog := [], infoLog := [],
        errLog := [] } :=
  crawl_of_fail cfg env fuel links0 seed h

/-- C6, witness: a `javascript:` seed fails normalization and yields the
no-op outcome. -/
theorem C6_witness :
    crawl exCfg exEnv 3 [] (lit "javascript:void(0)") =
      { visited := [], links := [], fetchLog := [], infoLog := [],
        errLog := [] } :=
  C6_theorem exCfg exEnv 3 [] (lit "javascript:void(0)") (by decide)

/-- C9: on an accepted input, appending a `#fragment` does not change the
normalization result (fragments are discarded), and no accepted URL ends
in a `'/'` (trailing slashes are right-trimmed, the domain root collapsing
to the bare domain string). -/
theorem C9_theorem (cfg : CrawlerCfg) (u s f : Str)
    (h : normalizeURL cfg u = (s, true)) :
    normalizeURL cfg (u ++ '#' :: f) = (s, true) ∧ s.getLast? ≠ some '/' :=
  ⟨normalizeURL_fragment_append cfg u f s h, (normalizeURL_accept cfg u s h).2⟩

/-- C9, witness: `http://e.com/page#frag` normalizes like
`http://e.com/page`, whose normalization does not end in a slash. -/
theorem C9_witness :
    normalizeURL exCfg (lit "http://e.com/page" ++ '#' :: lit "frag") =
      (lit "http://e.com/page", true) ∧
    (lit "http://e.com/page").getLast? ≠ some '/' :=
  C9_theorem exCfg (lit "http://e.com/page") (lit "http://e.com/page")
    (lit "frag") (by decide)

/-- C10: generating a sitemap with the empty filter pattern succeeds (the
empty regular expression compiles) but the empty pattern matches every
URL, so every discovered link is excluded and the resulting urlset holds
zero url entries, whatever was discovered. -/
theorem C10_theorem (links : List CrawlerURLRec) (domain newDomain : Str) :
    generateSitemap links domain newDomain [] = Except.ok [] := by
  have step : ∀ ls : List CrawlerURLRec,
      ls.filterMap (fun l =>
        if literalMatch [] l.link then none
        else some { location := replaceDomain l.link domain newDomain,
                    lastModified := l.lastChanged }) = ([] : List SitemapURL) := by
    intro ls
    induction ls with
    | nil => rfl
    | cons l rest ih =>
      have hcond : literalMatch [] l.link = true := literalMatch_nil _
      rw [List.filterMap_cons, if_pos hcond]
      exact ih
  show Except.ok (links.filterMap (fun l =>
      if literalMatch [] l.link then none
      else some { location := replaceDomain l.link domain newDomain,
                  lastModified := l.lastChanged })) = Except.ok ([] : List SitemapURL)
  exact congrArg Except.ok (step links)

/-- C3: after a cycle whose seed normalized successfully, the durable link
map holds exactly the URLs visited in that cycle — a URL is present in the
post-cycle `links` precisely when it is present in the cycle's `visited`
map, so URLs from prior cycles not visited now (failed fetches included)
are dropped. -/
theorem C3_theorem (cfg : CrawlerCfg) (env : CrawlEnv) (fuel : Nat)
    (links0 : LinkMap) (seed : Str) (h : (normalizeURL cfg seed).2 = true)
    (u : Str) :
    ((crawl cfg env fuel links0 seed).links.lookup u).isSome =
      ((crawl cfg env fuel links0 seed).visited.lookup u).isSome := by
  rw [crawl_of_ok cfg env fuel links0 seed h]
  dsimp only
  rw [reconcile_lookup]
  cases hv : (crawlLoop cfg env fuel [(normalizeURL cfg seed).1]
      ⟨[], [], [], [], 0⟩).visited.lookup u with
  | none => rfl
  | some w =>
    cases ho : links0.lookup u with
    | none => rfl
    | some old =>
      show (if w.checksum = old.checksum then some old else some w).isSome =
        (some w).isSome
      by_cases hc : w.checksum = old.checksum
      · rw [if_pos hc]
        rfl
      · rw [if_neg hc]

/-- C3, witness: in the fixture crawl the root URL is both visited and in
the resulting link map. -/
theorem C3_witness :
    ((crawl exCfg exEnv 5 [] (lit "/")).links.lookup (lit "http://e.com")).isSome =
      ((crawl exCfg exEnv 5 [] (lit "/")).visited.lookup (lit "http://e.com")).isSome :=
  C3_theorem exCfg exEnv 5 [] (lit "/") (by decide) (lit "http://e.com")

/-- C4: after a cycle whose seed normalized successfully, the durable
record of each URL is determined pointwise: absent when not visited; the
fresh record when the URL is new or its checksum changed; the previous
record — fingerprint and `lastChanged` untouched — when the checksum is
unchanged.  Being pointwise in `u`, a change to one URL's record leaves
every other record unaffected. -/
theorem C4_theorem (cfg : CrawlerCfg) (env : CrawlEnv) (fuel : Nat)
    (links0 : LinkMap) (seed : Str) (h : (normalizeURL cfg seed).2 = true)
    (u : Str) :
    (crawl cfg env fuel links0 seed).links.lookup u =
      match (crawl cfg env fuel links0 seed).visited.lookup u with
      | none => none
      | some w =>
        match links0.lookup u with
        | none => some w
        | some old => if w.checksum = old.checksum then some old else some w := by
  rw [crawl_of_ok cfg env fuel links0 seed h]
  exact reconcile_lookup links0 _ u

/-- C4, witness: re-crawling the fixture site with byte-identical content
keeps the previous record (checksum and `lastChanged := 99`) for the root
URL. -/
theorem C4_witness :
    (crawl exCfg exEnv 5 [(lit "http://e.com", oldRec)] (lit "/")).links.lookup
        (lit "http://e.com") = some oldRec ∧
    (crawl exCfg exEnv 5 [(lit "http://e.com", oldRec)] (lit "/")).links.lookup
        (lit "http://e.com") =
      match (crawl exCfg exEnv 5 [(lit "http://e.com", oldRec)]
          (lit "/")).visited.lookup (lit "http://e.com") with
      | none => none
      | some w =>
        match [(lit "http://e.com", oldRec)].lookup (lit "http://e.com") with
        | none => some w
        | some old => if w.checksum = old.checksum then some old else some w :=
  ⟨by decide,
    C4_theorem exCfg exEnv 5 [(lit "http://e.com", oldRec)] (lit "/")
      (by decide) (lit "http://e.com")⟩

/-- C7: the extractor equals its specification — from every anchor tag
exactly the `href` attribute values (configured extra attributes never
apply to anchors), from every other start or self-closing tag the values
of configured attributes, each passed through the normalizer, keeping the
accepted results in document order. -/
theorem C7_theorem (cfg : CrawlerCfg) (toks : List Tok) :
    extractLinks cfg toks = specExtract cfg toks := by
  induction toks with
  | nil => rfl
  | cons t rest ih =>
    cases t with
    | startTag nm attrs =>
      simp only [extractLinks, specExtract, specRawCandidates,
        List.filterMap_append]
      rw [tagLinks_eq, ih]
      rfl
    | selfClosing nm attrs =>
      simp only [extractLinks, specExtract, specRawCandidates,
        List.filterMap_append]
      rw [tagLinks_eq, ih]
      rfl
    | other =>
      simp only [extractLinks, specExtract, specRawCandidates]
      exact ih

theorem setDomain_eq_some (o : SiteMapperOptions) (d : Str) (p : GoURL)
    (hb : parseURL d = some p) :
    setDomain o d =
      if p.scheme ≠ lit "http" ∧ p.scheme ≠ lit "https" then
        (some (lit "invalid domain: scheme must be 'http' or 'https'"), o)
      else if p.path ≠ [] ∧ p.path ≠ lit "/" then
        (some (lit "invalid domain: must not include a relative path"), o)
      else if hostnameOf p.host = [] then
        (some (lit "invalid domain: must include a host"), o)
      else (none, { o with domain := trimRightChar '/' d }) := by
  rw [setDomain, hb]

theorem setDomain_err_unchanged (o : SiteMapperOptions) (d : Str)
    (h : (setDomain o d).1.isSome = true) : (setDomain o d).2 = o := by
  cases hb : parseURL d with
  | none => simp [setDomain, hb]
  | some p =>
    rw [setDomain_eq_some o d p hb] at h ⊢
    split_ifs at h ⊢ <;> first | rfl | simp at h

theorem setDomain_rejects (o : SiteMapperOptions) (d : Str)
    (h : domainInvalidB d = true) : (setDomain o d).1.isSome = true := by
  cases hb : parseURL d with
  | none => simp [setDomain, hb]
  | some p =>
    rw [domainInvalidB, hb] at h
    simp only [Bool.or_eq_true, Bool.and_eq_true, decide_eq_true_eq] at h
    rw [setDomain_eq_some o d p hb]
    split_ifs with hc1 hc2 hc3
    · rfl
    · rfl
    · rfl
    · rcases h with (⟨ha, hb2⟩ | hcp) | hh
      · exact absurd ⟨ha, hb2⟩ hc1
      · exact absurd hcp hc2
      · exact absurd hh hc3

/-- C8: every invalid construction input — a domain that does not parse,
has a non-http(s) scheme, a non-root path or no host; a negative first
crawl delay; a negative crawl interval; an empty link-attribute list — is
rejected with an error by the corresponding setter, and a rejecting setter
leaves the previously stored options value unchanged. -/
theorem C8_theorem (o : SiteMapperOptions) (d : Str) (t i : Int)
    (attrs : List Str) :
    ((setDomain o d).1.isSome = true → (setDomain o d).2 = o) ∧
    (domainInvalidB d = true → (setDomain o d).1.isSome = true) ∧
    (t < 0 → (setDurationBeforeFirstCrawl o t).1.isSome = true ∧
      (setDurationBeforeFirstCrawl o t).2 = o) ∧
    (i < 0 → (setCrawlInterval o i).1.isSome = true ∧
      (setCrawlInterval o i).2 = o) ∧
    (attrs = [] → (setLinkAttributes o attrs).1.isSome = true ∧
      (setLinkAttributes o attrs).2 = o) := by
  refine ⟨setDomain_err_unchanged o d, setDomain_rejects o d, ?_, ?_, ?_⟩
  · intro ht
    rw [setDurationBeforeFirstCrawl, if_pos ht]
    exact ⟨rfl, rfl⟩
  · intro hi
    rw [setCrawlInterval, if_pos hi]
    exact ⟨rfl, rfl⟩
  · intro ha
    rw [setLinkAttributes, if_pos ha]
    exact ⟨rfl, rfl⟩

/-- C8, witness: an `ftp` domain, a negative delay, a negative interval
and an empty attribute list are each rejected, the options value staying
the default. -/
theorem C8_witness :
    (setDomain defaultOptions (lit "ftp://a.b")).1.isSome = true ∧
    (setDomain defaultOptions (lit "ftp://a.b")).2 = defaultOptions ∧
    (setDurationBeforeFirstCrawl defaultOptions (-1)).1.isSome = true ∧
    (setDurationBeforeFirstCrawl defaultOptions (-1)).2 = defaultOptions ∧
    (setCrawlInterval defaultOptions (-1)).1.isSome = true ∧
    (setCrawlInterval defaultOptions (-1)).2 = defaultOptions ∧
    (setLinkAttributes defaultOptions []).1.isSome = true ∧
    (setLinkAttributes defaultOptions []).2 = defaultOptions := by
  have h := C8_theorem defaultOptions (lit "ftp://a.b") (-1) (-1) []
  exact ⟨h.2.1 (by decide), h.1 (h.2.1 (by decide)),
    (h.2.2.1 (by decide)).1, (h.2.2.1 (by decide)).2,
    (h.2.2.2.1 (by decide)).1, (h.2.2.2.1 (by decide)).2,
    (h.2.2.2.2 rfl).1, (h.2.2.2.2 rfl).2⟩
